import Mathlib

/-!
Verification development for the IFC-to-glTF converter (src/converter.py).

The Python source is shallowly embedded: entity graphs delivered by the
external model-query service (ifcopenshell) become explicit inductive data,
Python floats are modelled as exact rationals, Python strings as lists of
characters, dictionaries as association lists, and every call into an
external service (file load, tessellation, directory creation, export) is
represented by its outcome, supplied in an environment record.  An optional
attribute guarded in the source by hasattr-and-truthiness is modelled as an
Option field or, for list-valued attributes, as a possibly empty list (both
an absent and an empty list attribute make the guarded loop a no-op).
-/

/-- RGBA color with channels as exact rationals (the source stores a Python
list of four floats in the 0-1 range). -/
structure RGBA where
  r : ℚ
  g : ℚ
  b : ℚ
  a : ℚ
deriving DecidableEq, Repr

/-- Python dictionary lookup, modelled on an association list: the value at
the first matching key, if any. -/
def dlookup {α : Type} : List (Nat × α) → Nat → Option α
  | [], _ => none
  | (k, v) :: rest, k2 => if k2 = k then some v else dlookup rest k2

/-- Python dictionary store d[k] = v: overwrite the binding when the key is
present, otherwise append the new binding. -/
def dinsert {α : Type} (d : List (Nat × α)) (k : Nat) (v : α) : List (Nat × α) :=
  if (dlookup d k).isSome then
    d.map (fun p => if p.1 = k then (k, v) else p)
  else
    d ++ [(k, v)]

/-- SurfaceColour attribute of an IfcSurfaceStyleRendering (converter.py
lines 40-43): three channel values, unclamped as authored. -/
structure SurfaceColour where
  red : ℚ
  green : ℚ
  blue : ℚ
deriving DecidableEq, Repr

/-- Transparency attribute of a rendering item (converter.py lines 46-52):
the attribute is absent or None, or float() raises on it, or it parses to a
numeric value. -/
inductive TransparencyAttr where
  | absent
  | unparsable
  | value (t : ℚ)
deriving DecidableEq, Repr

/-- Channel clamp min(1.0, max(0.0, x)) used for every color channel
(converter.py lines 41-43 and 48). -/
def clamp01 (x : ℚ) : ℚ := min 1 (max 0 x)

/-- Alpha resolution of converter.py lines 45-52: a starts at the opaque
default 1.0 and is replaced by min(1.0, max(0.0, 1.0 - float(t))) only when
the Transparency attribute is present, non-None and parsable; an absent
attribute or a parse failure leaves the default in place. -/
def resolveAlpha : TransparencyAttr → ℚ
  | .absent => 1
  | .unparsable => 1
  | .value t => min 1 (max 0 (1 - t))

/-- RGBA entry recorded for one qualifying rendering item of a surface style
(converter.py line 53): clamped channels plus the resolved alpha. -/
def styleEntry (c : SurfaceColour) (t : TransparencyAttr) : RGBA :=
  ⟨clamp01 c.red, clamp01 c.green, clamp01 c.blue, resolveAlpha t⟩

/-- Item of the Styles list of an IfcSurfaceStyle: either an
IfcSurfaceStyleRendering (whose SurfaceColour may be absent or None) or any
other style item kind, which converter.py lines 39-53 skip. -/
inductive StyleItem where
  | rendering (colour : Option SurfaceColour) (transparency : TransparencyAttr)
  | otherKind
deriving DecidableEq, Repr

/-- IfcSurfaceStyle entity: its id and its Styles items (an absent or empty
Styles attribute is the empty list). -/
structure SurfaceStyle where
  eid : Nat
  styles : List StyleItem
deriving DecidableEq, Repr

/-- Item of a material defining representation: either an IfcSurfaceStyle
reference (by id) or some other kind, skipped by converter.py line 65. -/
inductive MatRepItem where
  | surfaceStyle (sid : Nat)
  | otherKind
deriving DecidableEq, Repr

/-- One representation inside an IfcMaterialDefinitionRepresentation; an
absent Items attribute is the empty list. -/
structure MatRepresentation where
  items : List MatRepItem
deriving DecidableEq, Repr

/-- One entry of a material HasRepresentation list; an absent
Representations attribute is the empty list. -/
structure MatDefRepresentation where
  representations : List MatRepresentation
deriving DecidableEq, Repr

/-- IfcMaterial entity as read by pass 2 of the extraction (converter.py
lines 57-67). -/
structure MaterialEntity where
  eid : Nat
  hasRepresentation : List MatDefRepresentation
deriving DecidableEq, Repr

/-- IfcStyledItem entity as read by pass 3 of the extraction (converter.py
lines 70-76): its id and the ids of the styles it references. -/
structure StyledItemEntity where
  eid : Nat
  styles : List Nat
deriving DecidableEq, Repr

/-- Pass 1 of extract_material_colors (converter.py lines 35-54): for every
surface style, every IfcSurfaceStyleRendering item carrying a SurfaceColour
stores the clamped RGBA under the style id, later qualifying items of the
same style overwriting earlier ones. -/
def pass1 (surfaceStyles : List SurfaceStyle) : List (Nat × RGBA) :=
  surfaceStyles.foldl
    (fun acc style =>
      style.styles.foldl
        (fun acc item =>
          match item with
          | .rendering (some colour) t => dinsert acc style.eid (styleEntry colour t)
          | .rendering none _ => acc
          | .otherKind => acc)
        acc)
    []

/-- Pass 2 of extract_material_colors (converter.py lines 57-67): for every
material, every IfcSurfaceStyle item of its defining representations whose
id is already mapped copies that entry to the material id. -/
def pass2 (materials : List MaterialEntity) (acc0 : List (Nat × RGBA)) :
    List (Nat × RGBA) :=
  materials.foldl
    (fun acc material =>
      material.hasRepresentation.foldl
        (fun acc rep =>
          rep.representations.foldl
            (fun acc representation =>
              representation.items.foldl
                (fun acc item =>
                  match item with
                  | .surfaceStyle sid =>
                    match dlookup acc sid with
                    | some v => dinsert acc material.eid v
                    | none => acc
                  | .otherKind => acc)
                acc)
            acc)
        acc)
    acc0

/-- Pass 3 of extract_material_colors (converter.py lines 70-76): for every
styled item, every referenced style id already mapped copies that entry to
the styled item id. -/
def pass3 (styledItems : List StyledItemEntity) (acc0 : List (Nat × RGBA)) :
    List (Nat × RGBA) :=
  styledItems.foldl
    (fun acc si =>
      si.styles.foldl
        (fun acc sid =>
          match dlookup acc sid with
          | some v => dinsert acc si.eid v
          | none => acc)
        acc)
    acc0

/-- RelatingMaterial of an IfcRelAssociatesMaterial (converter.py lines
138-144): a single IfcMaterial, an IfcMaterialLayerSet whose layers each
optionally carry a Material (absent or None modelled as none), or any other
material-select kind, which the source skips. -/
inductive RelatingMaterial where
  | material (mid : Nat)
  | layerSet (layers : List (Option Nat))
  | otherKind
deriving DecidableEq, Repr

/-- One entry of a product HasAssociations list (converter.py line 137):
an IfcRelAssociatesMaterial or any other association kind. -/
inductive Association where
  | associatesMaterial (m : RelatingMaterial)
  | otherKind
deriving DecidableEq, Repr

/-- Representation item of a product, carrying the ids of the IfcStyledItem
entities styling it (inverse attribute StyledByItem; absent or empty is the
empty list). -/
structure RepItem where
  styledByItem : List Nat
deriving DecidableEq, Repr

/-- One representation of a product; an absent Items attribute is the empty
list. -/
structure ProductRep where
  items : List RepItem
deriving DecidableEq, Repr

/-- IfcProduct as read by get_product_color: its associations and its
optional Representation (none when the attribute is absent or None; the
Representations list sits inside). -/
structure Product where
  hasAssociations : List Association
  representation : Option (List ProductRep)
deriving DecidableEq, Repr

/-- Result dictionary of get_product_color: a color, a texture reference, or
neither (converter.py lines 128 and 159). -/
structure Appearance where
  color : Option RGBA
  texture : Option (List Char)
deriving DecidableEq, Repr

/-- Layer scan of converter.py lines 142-144: the first layer whose Material
is present and whose id is in the color map yields that color; layers with
an absent Material or an unmapped id are skipped. -/
def firstLayerColor (colors : List (Nat × RGBA)) : List (Option Nat) → Option RGBA
  | [] => none
  | none :: rest => firstLayerColor colors rest
  | some mid :: rest =>
    match dlookup colors mid with
    | some c => some c
    | none => firstLayerColor colors rest

/-- Dispatch on the RelatingMaterial of one association (converter.py lines
138-144): a direct IfcMaterial resolves by map lookup, an
IfcMaterialLayerSet by the ordered layer scan, anything else not at all. -/
def matchRelatingMaterial (colors : List (Nat × RGBA)) : RelatingMaterial → Option RGBA
  | .material mid => dlookup colors mid
  | .layerSet layers => firstLayerColor colors layers
  | .otherKind => none

/-- Association loop of converter.py lines 135-144: associations are scanned
in list order and the first IfcRelAssociatesMaterial whose RelatingMaterial
resolves returns its color; all other associations are skipped. -/
def findMaterialColor (colors : List (Nat × RGBA)) : List Association → Option RGBA
  | [] => none
  | .associatesMaterial m :: rest =>
    match matchRelatingMaterial colors m with
    | some c => some c
    | none => findMaterialColor colors rest
  | .otherKind :: rest => findMaterialColor colors rest

/-- Innermost styled-item loop of converter.py lines 152-157: the ids are
scanned in order, an id in the color map returns its color immediately, and
only an id absent from the color map but present in the texture map returns
a texture reference. -/
def scanStyled (colors : List (Nat × RGBA)) (textures : List (Nat × List Char)) :
    List Nat → Option Appearance
  | [] => none
  | sid :: rest =>
    match dlookup colors sid with
    | some c => some ⟨some c, none⟩
    | none =>
      match dlookup textures sid with
      | some u => some ⟨none, some u⟩
      | none => scanStyled colors textures rest

/-- Item loop of converter.py lines 150-157: items of one representation are
scanned in order, the first item whose styled-by scan hits wins. -/
def scanItems (colors : List (Nat × RGBA)) (textures : List (Nat × List Char)) :
    List RepItem → Option Appearance
  | [] => none
  | item :: rest =>
    match scanStyled colors textures item.styledByItem with
    | some app => some app
    | none => scanItems colors textures rest

/-- Representation loop of converter.py lines 148-157: representations are
scanned in order, the first one whose item scan hits wins. -/
def findStyledAppearance (colors : List (Nat × RGBA)) (textures : List (Nat × List Char)) :
    List ProductRep → Option Appearance
  | [] => none
  | rep :: rest =>
    match scanItems colors textures rep.items with
    | some app => some app
    | none => findStyledAppearance colors textures rest

/-- Appearance resolution get_product_color (converter.py lines 115-162):
the material-association scan runs first and short-circuits; only when it
yields nothing and a Representation is present does the styled-item scan
run; otherwise neither a color nor a texture is returned.  The internal
try-except (returning the empty appearance) is unreachable in the
embedding, whose operations are total. -/
def get_product_color (product : Product) (material_colors : List (Nat × RGBA))
    (textures : List (Nat × List Char)) : Appearance :=
  match findMaterialColor material_colors product.hasAssociations with
  | some c => ⟨some c, none⟩
  | none =>
    match product.representation with
    | none => ⟨none, none⟩
    | some reps =>
      match findStyledAppearance material_colors textures reps with
      | some app => app
      | none => ⟨none, none⟩

/-- Vertex position: three coordinates.  The flat, length-3n vertex array of
the tessellator is modelled already grouped into triples, as produced by the
reshape(-1, 3) on converter.py line 223. -/
abbrev Vec3 := ℚ × ℚ × ℚ

/-- Triangle: three vertex indices, the reshape(-1, 3) grouping of the flat
face array on converter.py line 224. -/
abbrev Tri := Nat × Nat × Nat

/-- Outcome of the guarded tessellation of one product (converter.py lines
215-224): the call (or anything in the per-product try block) raises, or the
shape or its geometry is falsy or lacks the verts and faces attributes, or
grouped vertex and face arrays are delivered (either possibly empty). -/
inductive TessOutcome where
  | raises
  | noShape
  | geometry (verts : List Vec3) (faces : List Tri)
deriving DecidableEq, Repr

/-- One candidate element of the conversion loop: the product entity
together with the behaviour of the external tessellator on it. -/
structure ProductEntry where
  product : Product
  tess : TessOutcome
deriving DecidableEq, Repr

/-- Severity levels of the logging calls in the conversion loop. -/
inductive Severity where
  | debug
  | info
  | warning
  | error
deriving DecidableEq, Repr

/-- Log events emitted inside the conversion loop: the periodic progress
line (converter.py line 211), the texture-found-but-not-applied warning
(line 233), and the per-product failure message (line 250). -/
inductive LogEvent where
  | progress
  | textureNotApplied (url : List Char)
  | productFailed
deriving DecidableEq, Repr

/-- Severity at which each loop event is logged in the source. -/
def LogEvent.severity : LogEvent → Severity
  | .progress => .info
  | .textureNotApplied _ => .warning
  | .productFailed => .debug

/-- Accumulator variables of the conversion loop (converter.py lines
202-206): the per-product blocks of vertices, adjusted faces and broadcast
colors, the running vertex count, and the success counter. -/
structure LoopState where
  all_vertices : List (List Vec3)
  all_faces : List (List Tri)
  all_colors : List (List RGBA)
  vertex_offset : Nat
  successful : Nat
deriving DecidableEq, Repr

/-- Initial accumulator state (converter.py lines 202-207). -/
def initState : LoopState := ⟨[], [], [], 0, 0⟩

/-- Default light-gray color of converter.py line 207, the float literals
0.784 taken as exact rationals. -/
def defaultColor : RGBA := ⟨784/1000, 784/1000, 784/1000, 1⟩

/-- Color actually applied to the vertices of one product (converter.py
lines 228-235): the resolved color, or the default when resolution yields no
color (a None color is falsy; a four-element list never is). -/
def appliedColor (product : Product) (colors : List (Nat × RGBA))
    (textures : List (Nat × List Char)) : RGBA :=
  match (get_product_color product colors textures).color with
  | some c => c
  | none => defaultColor

/-- Body of the per-product try block (converter.py lines 213-251) run on
one entry against the current accumulator state, returning the new state and
the log events it emits.  A raising entry leaves the state untouched and
logs the debug-level failure line; a shape without geometry (or with an
empty vertex or face array) is silently skipped; a product with geometry is
resolved, its texture (a nonempty string, Python truthiness) logged as not
applied, its local face indices shifted by the running vertex count, and one
color broadcast per appended vertex. -/
def processProduct (colors : List (Nat × RGBA)) (textures : List (Nat × List Char))
    (st : LoopState) (pe : ProductEntry) : LoopState × List LogEvent :=
  match pe.tess with
  | .raises => (st, [.productFailed])
  | .noShape => (st, [])
  | .geometry verts faces =>
    if verts = [] ∨ faces = [] then (st, [])
    else
      let info := get_product_color pe.product colors textures
      let texLog : List LogEvent :=
        match info.texture with
        | some u => if u = [] then [] else [.textureNotApplied u]
        | none => []
      let color := appliedColor pe.product colors textures
      let adjusted := faces.map
        (fun t => (t.1 + st.vertex_offset, t.2.1 + st.vertex_offset, t.2.2 + st.vertex_offset))
      (⟨st.all_vertices ++ [verts],
        st.all_faces ++ [adjusted],
        st.all_colors ++ [List.replicate verts.length color],
        st.vertex_offset + verts.length,
        st.successful + 1⟩, texLog)

/-- One iteration of the enumerate loop (converter.py lines 209-251): the
progress line is logged when the index is a multiple of 50, then the
per-product body runs and the index advances. -/
def loopStep (colors : List (Nat × RGBA)) (textures : List (Nat × List Char))
    (acc : LoopState × List LogEvent × Nat) (pe : ProductEntry) :
    LoopState × List LogEvent × Nat :=
  ((processProduct colors textures acc.1 pe).1,
   acc.2.1 ++ (if acc.2.2 % 50 = 0 then [LogEvent.progress] else [])
     ++ (processProduct colors textures acc.1 pe).2,
   acc.2.2 + 1)

/-- Conversion loop over the candidate products, threading the accumulator,
the log, and the enumerate index. -/
def runLoopAux (colors : List (Nat × RGBA)) (textures : List (Nat × List Char)) :
    (LoopState × List LogEvent × Nat) → List ProductEntry →
    LoopState × List LogEvent × Nat
  | acc, [] => acc
  | acc, pe :: rest => runLoopAux colors textures (loopStep colors textures acc pe) rest

/-- Conversion loop from the initial state: final accumulator and log. -/
def runLoop (colors : List (Nat × RGBA)) (textures : List (Nat × List Char))
    (entries : List ProductEntry) : LoopState × List LogEvent :=
  let r := runLoopAux colors textures (initState, [], 0) entries
  (r.1, r.2.1)

/-- The IFC model as the converter reads it: the entity lists returned by
the by_type queries, with each candidate product bundled with its
tessellation outcome.  Texture entities carry their id and URLReference (an
absent or empty attribute is the empty string). -/
structure IfcModel where
  surfaceStyles : List SurfaceStyle
  materials : List MaterialEntity
  styledItems : List StyledItemEntity
  textureEntities : List (Nat × List Char)
  products : List ProductEntry
deriving DecidableEq, Repr

/-- Extraction body of extract_material_colors (converter.py lines 31-81):
the three passes in order, each reading entries written by the earlier ones.
The surrounding try-except substitutes the empty dictionary when the body
raises, which the raises flag models. -/
def extract_material_colors (m : IfcModel) (raises : Bool) : List (Nat × RGBA) :=
  if raises then [] else pass3 m.styledItems (pass2 m.materials (pass1 m.surfaceStyles))

/-- Texture extraction extract_textures (converter.py lines 87-113): every
IfcImageTexture or IfcPixelTexture entity with a truthy (nonempty)
URLReference is recorded; the try-except substitutes the empty dictionary
when the body raises. -/
def extract_textures (m : IfcModel) (raises : Bool) : List (Nat × List Char) :=
  if raises then [] else m.textureEntities.filter (fun p => ¬ p.2 = [])

/-- Lowercasing of a Python string, output_path.lower() on converter.py line
181. -/
def lowerStr (s : List Char) : List Char := s.map Char.toLower

/-- Python str.endswith on character lists: the candidate suffix equals the
final segment of the string. -/
def strEndsWith (s p : List Char) : Bool :=
  if p.length ≤ s.length then decide (s.drop (s.length - p.length) = p) else false

/-- The glTF file extension as a character list. -/
def gltfSuffix : List Char := ['.', 'g', 'l', 't', 'f']

/-- Output-path normalization of converter.py lines 181-182: when the
lowercased path does not end in .gltf the suffix is appended, otherwise the
path is kept as given. -/
def normalizeOutputPath (s : List Char) : List Char :=
  if strEndsWith (lowerStr s) gltfSuffix then s else s ++ gltfSuffix

/-- Environment of one convert_ifc_to_gltf call: the output path argument,
the outcome of the ifcopenshell.open call, whether the try bodies of the two
extraction helpers raise, and whether mesh construction, directory creation
or the glTF export raise. -/
structure Env where
  outputPath : List Char
  load : Except Unit IfcModel
  colorsRaise : Bool
  texturesRaise : Bool
  meshRaise : Bool
  mkdirRaise : Bool
  exportRaise : Bool
deriving Repr

/-- Body of the outer try block of convert_ifc_to_gltf (converter.py lines
180-282): normalize the output path, open the model, build both indices,
filter the candidate products (those with a truthy Representation), run the
loop, return False early when no geometry was collected (ok none, nothing
written), and otherwise construct the mesh, create directories and export,
any of which may raise (error); on full success the normalized path has been
written (ok some). -/
def convertBody (env : Env) : Except Unit (Option (List Char)) :=
  match env.load with
  | .error e => .error e
  | .ok model =>
    let colors := extract_material_colors model env.colorsRaise
    let textures := extract_textures model env.texturesRaise
    let products := model.products.filter (fun pe => pe.product.representation.isSome)
    let st := (runLoop colors textures products).1
    if st.all_vertices = [] then .ok none
    else if env.meshRaise then .error ()
    else if env.mkdirRaise then .error ()
    else if env.exportRaise then .error ()
    else .ok (some (normalizeOutputPath env.outputPath))

/-- Classified outcome of one conversion run: success with the written file
path, the empty-mesh early False return, or the outer except handler. -/
inductive ConvertOutcome where
  | success (written : List Char)
  | emptyMesh
  | exceptionCaught
deriving DecidableEq, Repr

/-- Outcome classification of a convert_ifc_to_gltf run. -/
def convertRun (env : Env) : ConvertOutcome :=
  match convertBody env with
  | .ok (some p) => .success p
  | .ok none => .emptyMesh
  | .error _ => .exceptionCaught

/-- Boolean result of convert_ifc_to_gltf (converter.py lines 164-288): True
only on the full-success path; the empty-mesh early return and the outer
except handler both return False. -/
def convert_ifc_to_gltf (env : Env) : Bool :=
  match convertRun env with
  | .success _ => true
  | .emptyMesh => false
  | .exceptionCaught => false

/-- Path of the output file the run wrote, none when no file was written
(empty mesh returns before any filesystem access; the handler path writes
nothing). -/
def writtenFile (env : Env) : Option (List Char) :=
  match convertRun env with
  | .success p => some p
  | .emptyMesh => none
  | .exceptionCaught => none

/-- Red test color. -/
def redC : RGBA := ⟨1, 0, 0, 1⟩

/-- Blue test color. -/
def blueC : RGBA := ⟨0, 0, 1, 1⟩

/-- Color index mapping material 1 to red and material 2 to blue. -/
def colorsTwo : List (Nat × RGBA) := [(1, redC), (2, blueC)]

/-- Product whose layer-set association precedes its direct-material
association; both resolve against colorsTwo. -/
def layerFirstProduct : Product :=
  ⟨[.associatesMaterial (.layerSet [some 2]), .associatesMaterial (.material 1)], none⟩

/-- Product with a single direct material association to material 1. -/
def directOnlyProduct : Product := ⟨[.associatesMaterial (.material 1)], none⟩

/-- Claim C3, counterexample: a parsable transparency of 2 lies outside
[0, 1], yet the resolved alpha is the clamped value 0, not the default 1
the claim requires. -/
theorem alpha_out_of_range_cex :
    resolveAlpha (TransparencyAttr.value 2) = 0 ∧ (0 : ℚ) ≠ 1 := by
  constructor
  · norm_num [resolveAlpha]
  · norm_num

/-- Claim C3, amended: for transparency t in [0, 1] the resolved alpha is
1 - t; a parsable t above 1 clamps to alpha 0 and a parsable t below 0
clamps to alpha 1; only an absent or unparsable transparency takes the
default 1. -/
theorem alpha_resolution_amended (t : ℚ) :
    (0 ≤ t → t ≤ 1 → resolveAlpha (.value t) = 1 - t) ∧
    (1 < t → resolveAlpha (.value t) = 0) ∧
    (t < 0 → resolveAlpha (.value t) = 1) ∧
    resolveAlpha .absent = 1 ∧
    resolveAlpha .unparsable = 1 := by
  refine ⟨?_, ?_, ?_, rfl, rfl⟩
  · intro h0 h1
    simp only [resolveAlpha]
    rw [max_eq_right (by linarith), min_eq_right (by linarith)]
  · intro h
    simp only [resolveAlpha]
    rw [max_eq_left (by linarith), min_eq_right (by norm_num)]
  · intro h
    simp only [resolveAlpha]
    rw [max_eq_right (by linarith), min_eq_left (by linarith)]

/-- Witness for the amended alpha resolution at transparency one half, 2 and
minus 1. -/
theorem alpha_resolution_witness :
    resolveAlpha (TransparencyAttr.value (1/2)) = 1 - 1/2 ∧
    resolveAlpha (TransparencyAttr.value 2) = 0 ∧
    resolveAlpha (TransparencyAttr.value (-1)) = 1 :=
  ⟨(alpha_resolution_amended (1/2)).1 (by norm_num) (by norm_num),
   (alpha_resolution_amended 2).2.1 (by norm_num),
   (alpha_resolution_amended (-1)).2.2.1 (by norm_num)⟩

/-- Claim C1, counterexample: material 1 has a resolvable direct-material
association on layerFirstProduct, yet resolution returns the layer-set color
blue, because the layer-set association precedes the direct one in the
HasAssociations list. -/
theorem direct_material_precedence_cex :
    dlookup colorsTwo 1 = some redC ∧
    get_product_color layerFirstProduct colorsTwo [] = ⟨some blueC, none⟩ ∧
    blueC ≠ redC := by
  exact ⟨rfl, rfl, by decide⟩

/-- Claim C1, amended: the material-association scan wins over styled items
and the default whenever it resolves, and a resolvable direct material wins
over everything else whenever its association comes first in the
association list; across associations, however, list order decides, not the
direct-over-layered precedence. -/
theorem direct_material_precedence_amended (product : Product)
    (colors : List (Nat × RGBA)) (textures : List (Nat × List Char)) :
    (∀ c, findMaterialColor colors product.hasAssociations = some c →
      get_product_color product colors textures = ⟨some c, none⟩) ∧
    (∀ mid c rest,
      product.hasAssociations = .associatesMaterial (.material mid) :: rest →
      dlookup colors mid = some c →
      get_product_color product colors textures = ⟨some c, none⟩) := by
  constructor
  · intro c h
    simp [get_product_color, h]
  · intro mid c rest hassoc hlook
    have h : findMaterialColor colors product.hasAssociations = some c := by
      rw [hassoc]
      simp [findMaterialColor, matchRelatingMaterial, hlook]
    simp [get_product_color, h]

/-- Witness for the amended precedence: a product whose first association is
a direct material present in the index resolves to that color. -/
theorem direct_material_precedence_witness :
    get_product_color directOnlyProduct colorsTwo [] = ⟨some redC, none⟩ :=
  (direct_material_precedence_amended directOnlyProduct colorsTwo []).2 1 redC [] rfl rfl

/-- Claim C5: the layer scan returns the color of the first layer whose
material id is present in the index, skipping layers with an absent material
or an unindexed one, and a resolving layer set at the head of the
association list decides the whole resolution. -/
theorem layer_set_first_match (colors : List (Nat × RGBA))
    (textures : List (Nat × List Char)) :
    (∀ layers, firstLayerColor colors layers
        = (layers.filterMap (fun o => o.bind (dlookup colors))).head?) ∧
    (∀ rest, firstLayerColor colors (none :: rest) = firstLayerColor colors rest) ∧
    (∀ mid rest, dlookup colors mid = none →
        firstLayerColor colors (some mid :: rest) = firstLayerColor colors rest) ∧
    (∀ mid c rest, dlookup colors mid = some c →
        firstLayerColor colors (some mid :: rest) = some c) ∧
    (∀ product layers rest c,
        product.hasAssociations = .associatesMaterial (.layerSet layers) :: rest →
        firstLayerColor colors layers = some c →
        get_product_color product colors textures = ⟨some c, none⟩) := by
  refine ⟨?_, ?_, ?_, ?_, ?_⟩
  · intro layers
    induction layers with
    | nil => rfl
    | cons hd tl ih =>
      cases hd with
      | none => simpa [firstLayerColor] using ih
      | some mid =>
        cases hl : dlookup colors mid with
        | none => simp [firstLayerColor, hl, ih]
        | some c => simp [firstLayerColor, hl]
  · intro rest
    rfl
  · intro mid rest h
    simp [firstLayerColor, h]
  · intro mid c rest h
    simp [firstLayerColor, h]
  · intro product layers rest c hassoc hfirst
    have h : findMaterialColor colors product.hasAssociations = some c := by
      rw [hassoc]
      simp [findMaterialColor, matchRelatingMaterial, hfirst]
    simp [get_product_color, h]

/-- Product whose only association is a layer set with an absent-material
layer, a layer with an unindexed material, and a layer with material 2. -/
def layerOnlyProduct : Product :=
  ⟨[.associatesMaterial (.layerSet [none, some 5, some 2])], none⟩

/-- Witness for the layer scan: material 5 is unindexed and skipped,
material 2 resolves to blue, and the whole product resolves to blue. -/
theorem layer_set_first_match_witness :
    firstLayerColor colorsTwo (some 5 :: [some 2]) = firstLayerColor colorsTwo [some 2] ∧
    firstLayerColor colorsTwo (some 2 :: []) = some blueC ∧
    get_product_color layerOnlyProduct colorsTwo [] = ⟨some blueC, none⟩ :=
  ⟨(layer_set_first_match colorsTwo []).2.2.1 5 [some 2] rfl,
   (layer_set_first_match colorsTwo []).2.2.2.1 2 blueC [] rfl,
   (layer_set_first_match colorsTwo []).2.2.2.2 layerOnlyProduct
     [none, some 5, some 2] [] blueC rfl rfl⟩

/-- Styled-item ids of a representation list, in the scan order of the three
nested loops on converter.py lines 148-152. -/
def styledIds (reps : List ProductRep) : List Nat :=
  reps.flatMap (fun rep => rep.items.flatMap RepItem.styledByItem)

/-- The styled-id scan over a concatenation takes the first hit of the left
part, else scans the right part. -/
lemma scanStyled_append (colors : List (Nat × RGBA)) (textures : List (Nat × List Char))
    (xs ys : List Nat) :
    scanStyled colors textures (xs ++ ys)
      = match scanStyled colors textures xs with
        | some app => some app
        | none => scanStyled colors textures ys := by
  induction xs with
  | nil => rfl
  | cons sid rest ih =>
    cases hc : dlookup colors sid with
    | some c => simp [scanStyled, hc]
    | none =>
      cases ht : dlookup textures sid with
      | some u => simp [scanStyled, hc, ht]
      | none => simp [scanStyled, hc, ht, ih]

/-- The item loop equals the styled-id scan over the flattened ids of the
items. -/
lemma scanItems_eq_scanStyled (colors : List (Nat × RGBA))
    (textures : List (Nat × List Char)) (items : List RepItem) :
    scanItems colors textures items
      = scanStyled colors textures (items.flatMap RepItem.styledByItem) := by
  induction items with
  | nil => rfl
  | cons item rest ih =>
    rw [List.flatMap_cons, scanStyled_append]
    simp only [scanItems, ih]

/-- The representation loop equals the styled-id scan over the flattened ids
of all representations. -/
lemma findStyled_eq_scanStyled (colors : List (Nat × RGBA))
    (textures : List (Nat × List Char)) (reps : List ProductRep) :
    findStyledAppearance colors textures reps
      = scanStyled colors textures (styledIds reps) := by
  induction reps with
  | nil => rfl
  | cons rep rest ih =>
    rw [styledIds, List.flatMap_cons, scanStyled_append]
    simp only [findStyledAppearance, scanItems_eq_scanStyled, ih, styledIds]

/-- Claim C4: when no material association resolves, resolution scans the
styled-item ids of the representation items in order; an id in the color
index returns that color, an id absent from the color index but present in
the texture index returns that texture reference, and an id in both yields
the color, never the texture. -/
theorem styled_item_resolution (product : Product) (colors : List (Nat × RGBA))
    (textures : List (Nat × List Char)) (reps : List ProductRep)
    (hmat : findMaterialColor colors product.hasAssociations = none)
    (hrep : product.representation = some reps) :
    (get_product_color product colors textures
        = match scanStyled colors textures (styledIds reps) with
          | some app => app
          | none => ⟨none, none⟩) ∧
    (∀ sid rest c, dlookup colors sid = some c →
        scanStyled colors textures (sid :: rest) = some ⟨some c, none⟩) ∧
    (∀ sid rest u, dlookup colors sid = none → dlookup textures sid = some u →
        scanStyled colors textures (sid :: rest) = some ⟨none, some u⟩) ∧
    (∀ sid rest, dlookup colors sid = none → dlookup textures sid = none →
        scanStyled colors textures (sid :: rest) = scanStyled colors textures rest) := by
  refine ⟨?_, ?_, ?_, ?_⟩
  · simp [get_product_color, hmat, hrep, findStyled_eq_scanStyled]
  · intro sid rest c h
    simp [scanStyled, h]
  · intro sid rest u hc ht
    simp [scanStyled, hc, ht]
  · intro sid rest hc ht
    simp [scanStyled, hc, ht]

/-- Product with no associations and one representation whose single item is
styled by styled item 7. -/
def styledProduct : Product := ⟨[], some [⟨[⟨[7]⟩]⟩]⟩

/-- Witness for the styled-item resolution: with id 7 in both indices the
color wins; with id 7 only in the texture index the texture reference is
returned with no color. -/
theorem styled_item_resolution_witness :
    get_product_color styledProduct [(7, redC)] [(7, ['u'])] = ⟨some redC, none⟩ ∧
    get_product_color styledProduct [] [(7, ['u'])] = ⟨none, some ['u']⟩ := by
  constructor
  · have h := styled_item_resolution styledProduct [(7, redC)] [(7, ['u'])]
      [⟨[⟨[7]⟩]⟩] rfl rfl
    rw [h.1]
    rfl
  · have h := styled_item_resolution styledProduct [] [(7, ['u'])]
      [⟨[⟨[7]⟩]⟩] rfl rfl
    rw [h.1]
    rfl

/-- Bool check that a triangle references only indices below n. -/
def triBelow (n : Nat) (t : Tri) : Bool :=
  decide (t.1 < n) && decide (t.2.1 < n) && decide (t.2.2 < n)

/-- Tessellator contract for one entry: when geometry is delivered, every
local face index lies below the length of the delivered vertex list (the
indices are 0-based into the element vertices); entries without geometry
are vacuously fine. -/
def localFacesValid : ProductEntry → Bool
  | ⟨_, .geometry verts faces⟩ => faces.all (triBelow verts.length)
  | _ => true

/-- Flattened final vertex buffer, np.vstack(all_vertices) of converter.py
line 262. -/
def finalVertices (st : LoopState) : List Vec3 := st.all_vertices.flatten

/-- Flattened final face buffer, np.vstack(all_faces) of converter.py line
263. -/
def finalFaces (st : LoopState) : List Tri := st.all_faces.flatten

/-- Flattened final color buffer, np.vstack(all_colors) of converter.py
line 264. -/
def finalColors (st : LoopState) : List RGBA := st.all_colors.flatten

/-- Mesh-buffer invariant: the flattened color buffer is exactly as long as
the flattened vertex buffer, and every stored triangle index is strictly
below the flattened vertex count. -/
def MeshInvariant (st : LoopState) : Prop :=
  (finalColors st).length = (finalVertices st).length ∧
  ∀ t ∈ finalFaces st, t.1 < (finalVertices st).length ∧
    t.2.1 < (finalVertices st).length ∧ t.2.2 < (finalVertices st).length

/-- Strengthened invariant threading the running vertex offset. -/
def FullInv (st : LoopState) : Prop :=
  st.vertex_offset = (finalVertices st).length ∧ MeshInvariant st

/-- Unfolding of the append branch of the per-product body for nonempty
geometry. -/
lemma processProduct_geometry (colors : List (Nat × RGBA))
    (textures : List (Nat × List Char)) (st : LoopState) (product : Product)
    (verts : List Vec3) (faces : List Tri) (hemp : ¬ (verts = [] ∨ faces = [])) :
    processProduct colors textures st ⟨product, .geometry verts faces⟩
      = (⟨st.all_vertices ++ [verts],
          st.all_faces ++ [faces.map (fun t =>
            (t.1 + st.vertex_offset, t.2.1 + st.vertex_offset, t.2.2 + st.vertex_offset))],
          st.all_colors ++ [List.replicate verts.length (appliedColor product colors textures)],
          st.vertex_offset + verts.length,
          st.successful + 1⟩,
         match (get_product_color product colors textures).texture with
         | some u => if u = [] then [] else [LogEvent.textureNotApplied u]
         | none => []) := by
  simp only [processProduct]
  rw [if_neg hemp]

/-- One loop body step preserves the strengthened invariant, given the
tessellator contract for the entry. -/
lemma processProduct_inv (colors : List (Nat × RGBA))
    (textures : List (Nat × List Char)) (st : LoopState) (pe : ProductEntry)
    (hloc : localFacesValid pe = true) (h : FullInv st) :
    FullInv (processProduct colors textures st pe).1 := by
  obtain ⟨hoff, hlen, hfaces⟩ := h
  obtain ⟨product, tess⟩ := pe
  cases tess with
  | raises => exact ⟨hoff, hlen, hfaces⟩
  | noShape => exact ⟨hoff, hlen, hfaces⟩
  | geometry verts faces =>
    by_cases hemp : verts = [] ∨ faces = []
    · simp only [processProduct, if_pos hemp]
      exact ⟨hoff, hlen, hfaces⟩
    · rw [processProduct_geometry colors textures st product verts faces hemp]
      simp only [localFacesValid] at hloc
      have hvalid := List.all_eq_true.mp hloc
      simp only [FullInv, MeshInvariant, finalVertices, finalFaces, finalColors]
        at hoff hlen hfaces ⊢
      simp only [List.flatten_append, List.flatten_cons, List.flatten_nil,
        List.append_nil, List.length_append, List.length_replicate]
      refine ⟨by omega, by omega, ?_⟩
      intro t ht
      simp only [List.mem_append] at ht
      rcases ht with hold | hnew
      · have h3 := hfaces t hold
        omega
      · rw [List.mem_map] at hnew
        obtain ⟨t0, ht0, rfl⟩ := hnew
        have h4 := hvalid t0 ht0
        simp only [triBelow, Bool.and_eq_true, decide_eq_true_eq] at h4
        dsimp only
        omega

/-- The loop preserves the strengthened invariant along any entry list whose
geometry entries satisfy the tessellator contract. -/
lemma runLoopAux_inv (colors : List (Nat × RGBA)) (textures : List (Nat × List Char))
    (entries : List ProductEntry) :
    ∀ acc : LoopState × List LogEvent × Nat,
      FullInv acc.1 → (∀ pe ∈ entries, localFacesValid pe = true) →
      FullInv (runLoopAux colors textures acc entries).1 := by
  induction entries with
  | nil =>
    intro acc h _
    exact h
  | cons pe rest ih =>
    intro acc h hvalid
    simp only [runLoopAux]
    apply ih
    · exact processProduct_inv colors textures acc.1 pe
        (hvalid pe (List.mem_cons_self pe rest)) h
    · intro q hq
      exact hvalid q (List.mem_cons_of_mem pe hq)

/-- Claim C2: after any sequence of loop iterations from the empty
accumulator, provided each delivered geometry satisfies the tessellator
contract of local 0-based indices, the flattened color buffer has exactly
the length of the flattened vertex buffer and every stored triangle index is
strictly below the total vertex count; the invariant is established
inductively over the append steps, each of which shifts the local indices by
the running vertex count and broadcasts one color per appended vertex. -/
theorem mesh_accumulator_invariant (colors : List (Nat × RGBA))
    (textures : List (Nat × List Char)) (entries : List ProductEntry)
    (hvalid : ∀ pe ∈ entries, localFacesValid pe = true) :
    MeshInvariant (runLoop colors textures entries).1 :=
  (runLoopAux_inv colors textures entries (initState, [], 0)
    ⟨rfl, rfl, by intro t ht; simp [finalFaces, initState] at ht⟩ hvalid).2

/-- Geometry entry with three vertices and one triangle. -/
def entryTriangle : ProductEntry :=
  ⟨styledProduct, .geometry [(0, 0, 0), (1, 0, 0), (0, 1, 0)] [(0, 1, 2)]⟩

/-- Geometry entry with two vertices and one degenerate triangle. -/
def entryPair : ProductEntry :=
  ⟨directOnlyProduct, .geometry [(0, 0, 0), (1, 1, 1)] [(0, 1, 1)]⟩

/-- Raising entry used across loop examples. -/
def raisingEntry : ProductEntry := ⟨directOnlyProduct, .raises⟩

/-- Witness for the accumulator invariant on a run with two geometry entries
and one raising entry. -/
theorem mesh_accumulator_invariant_witness :
    MeshInvariant (runLoop colorsTwo [] [entryTriangle, raisingEntry, entryPair]).1 :=
  mesh_accumulator_invariant colorsTwo [] [entryTriangle, raisingEntry, entryPair]
    (by decide)

/-- Along the loop the number of appended vertex blocks equals the success
counter: each append pushes one block and increments the counter once. -/
lemma runLoopAux_blocks (colors : List (Nat × RGBA)) (textures : List (Nat × List Char))
    (entries : List ProductEntry) :
    ∀ acc : LoopState × List LogEvent × Nat,
      acc.1.all_vertices.length = acc.1.successful →
      (runLoopAux colors textures acc entries).1.all_vertices.length
        = (runLoopAux colors textures acc entries).1.successful := by
  induction entries with
  | nil =>
    intro acc h
    exact h
  | cons pe rest ih =>
    intro acc h
    simp only [runLoopAux]
    apply ih
    obtain ⟨product, tess⟩ := pe
    cases tess with
    | raises => exact h
    | noShape => exact h
    | geometry verts faces =>
      by_cases hemp : verts = [] ∨ faces = []
      · show (processProduct colors textures acc.1 ⟨product, .geometry verts faces⟩).1.all_vertices.length
            = (processProduct colors textures acc.1 ⟨product, .geometry verts faces⟩).1.successful
        simp only [processProduct, if_pos hemp]
        exact h
      · show (processProduct colors textures acc.1 ⟨product, .geometry verts faces⟩).1.all_vertices.length
            = (processProduct colors textures acc.1 ⟨product, .geometry verts faces⟩).1.successful
        rw [processProduct_geometry colors textures acc.1 product verts faces hemp]
        simp only [List.length_append, List.length_singleton]
        omega

/-- The final number of appended blocks equals the final success counter. -/
lemma runLoop_blocks (colors : List (Nat × RGBA)) (textures : List (Nat × List Char))
    (entries : List ProductEntry) :
    (runLoop colors textures entries).1.all_vertices.length
      = (runLoop colors textures entries).1.successful :=
  runLoopAux_blocks colors textures entries (initState, [], 0) rfl

/-- Claim C6: with a successfully loaded model, the run reports the
empty-mesh condition exactly when the loop appended no element (the success
counter is zero); in that case the boolean result is False and no output
file is written, and with at least one appended element the empty-mesh
condition never arises. -/
theorem empty_mesh_iff (env : Env) (model : IfcModel) (st : LoopState)
    (hload : env.load = .ok model)
    (hst : st = (runLoop (extract_material_colors model env.colorsRaise)
        (extract_textures model env.texturesRaise)
        (model.products.filter (fun pe => pe.product.representation.isSome))).1) :
    (convertRun env = .emptyMesh ↔ st.successful = 0) ∧
    (convertRun env = .emptyMesh →
      convert_ifc_to_gltf env = false ∧ writtenFile env = none) := by
  have hblocks : st.all_vertices.length = st.successful := by
    rw [hst]
    exact runLoop_blocks ..
  have hempty : st.all_vertices = [] ↔ st.successful = 0 := by
    rw [← hblocks, List.length_eq_zero]
  have hbody : convertBody env
      = (if st.all_vertices = [] then .ok none
         else if env.meshRaise then .error ()
         else if env.mkdirRaise then .error ()
         else if env.exportRaise then .error ()
         else .ok (some (normalizeOutputPath env.outputPath))) := by
    simp only [convertBody, hload, ← hst]
  by_cases hv : st.all_vertices = []
  · have hrun : convertRun env = .emptyMesh := by
      rw [convertRun, hbody, if_pos hv]
    refine ⟨⟨fun _ => hempty.mp hv, fun _ => hrun⟩, fun _ => ⟨?_, ?_⟩⟩
    · simp only [convert_ifc_to_gltf, hrun]
    · simp only [writtenFile, hrun]
  · have hne : convertRun env ≠ .emptyMesh := by
      rw [convertRun, hbody, if_neg hv]
      by_cases h1 : env.meshRaise <;> by_cases h2 : env.mkdirRaise <;>
        by_cases h3 : env.exportRaise <;> simp [h1, h2, h3]
    exact ⟨⟨fun hcon => absurd hcon hne, fun hz => absurd (hempty.mpr hz) hv⟩,
      fun hcon => absurd hcon hne⟩

/-- Model with no entities at all. -/
def emptyModel : IfcModel := ⟨[], [], [], [], []⟩

/-- Environment whose model loads successfully but contains no products. -/
def envEmptyModel : Env := ⟨['o'], .ok emptyModel, false, false, false, false, false⟩

/-- Witness for the empty-mesh condition: the empty model yields the
empty-mesh outcome, a False result and no written file. -/
theorem empty_mesh_iff_witness :
    convertRun envEmptyModel = ConvertOutcome.emptyMesh ∧
    convert_ifc_to_gltf envEmptyModel = false ∧
    writtenFile envEmptyModel = none := by
  have h := empty_mesh_iff envEmptyModel emptyModel _ rfl rfl
  have he : convertRun envEmptyModel = ConvertOutcome.emptyMesh := h.1.mpr rfl
  exact ⟨he, (h.2 he).1, (h.2 he).2⟩

/-- The accumulator state reached by the loop does not depend on the log or
the enumerate index threaded beside it. -/
lemma runLoopAux_state_indep (colors : List (Nat × RGBA))
    (textures : List (Nat × List Char)) (entries : List ProductEntry) :
    ∀ (st : LoopState) (log1 log2 : List LogEvent) (i1 i2 : Nat),
      (runLoopAux colors textures (st, log1, i1) entries).1
        = (runLoopAux colors textures (st, log2, i2) entries).1 := by
  induction entries with
  | nil =>
    intro st log1 log2 i1 i2
    rfl
  | cons pe rest ih =>
    intro st log1 log2 i1 i2
    simp only [runLoopAux, loopStep]
    exact ih ..

/-- Splitting lemma for the loop over a concatenation of entry lists. -/
lemma runLoopAux_append (colors : List (Nat × RGBA)) (textures : List (Nat × List Char))
    (xs ys : List ProductEntry) :
    ∀ acc, runLoopAux colors textures acc (xs ++ ys)
      = runLoopAux colors textures (runLoopAux colors textures acc xs) ys := by
  induction xs with
  | nil =>
    intro acc
    rfl
  | cons pe rest ih =>
    intro acc
    simp only [List.cons_append, runLoopAux]
    exact ih _

/-- Claim C7: a product on which the per-product try block raises leaves the
accumulator untouched and emits exactly the per-product failure message,
which is logged at debug severity; the accumulator state of any run
containing such an entry equals that of the run with the entry removed, so
one failing element never aborts processing of the others. -/
theorem per_element_failure_skips (colors : List (Nat × RGBA))
    (textures : List (Nat × List Char)) (st : LoopState) (pe : ProductEntry)
    (xs ys : List ProductEntry) (hraises : pe.tess = .raises) :
    processProduct colors textures st pe = (st, [LogEvent.productFailed]) ∧
    LogEvent.severity .productFailed = .debug ∧
    (runLoop colors textures (xs ++ pe :: ys)).1
      = (runLoop colors textures (xs ++ ys)).1 := by
  obtain ⟨product, tess⟩ := pe
  dsimp only at hraises
  subst hraises
  refine ⟨rfl, rfl, ?_⟩
  show (runLoopAux colors textures (initState, [], 0)
      (xs ++ ⟨product, .raises⟩ :: ys)).1
    = (runLoopAux colors textures (initState, [], 0) (xs ++ ys)).1
  rw [runLoopAux_append, runLoopAux_append]
  generalize runLoopAux colors textures (initState, [], 0) xs = acc
  obtain ⟨st1, log1, i1⟩ := acc
  simp only [runLoopAux, loopStep, processProduct]
  exact runLoopAux_state_indep colors textures ys st1 _ _ _ _

/-- Witness for the per-element failure policy on a three-entry run whose
middle entry raises. -/
theorem per_element_failure_witness :
    processProduct colorsTwo [] initState raisingEntry
      = (initState, [LogEvent.productFailed]) ∧
    LogEvent.severity .productFailed = .debug ∧
    (runLoop colorsTwo [] ([entryTriangle] ++ raisingEntry :: [entryPair])).1
      = (runLoop colorsTwo [] ([entryTriangle] ++ [entryPair])).1 :=
  per_element_failure_skips colorsTwo [] initState raisingEntry
    [entryTriangle] [entryPair] rfl

/-- The styled-id scan yields either a pure color or a pure texture
appearance. -/
lemma scanStyled_shape (colors : List (Nat × RGBA)) (textures : List (Nat × List Char)) :
    ∀ sids app, scanStyled colors textures sids = some app →
      (∃ c, app = ⟨some c, none⟩) ∨ ∃ u, app = ⟨none, some u⟩ := by
  intro sids
  induction sids with
  | nil =>
    intro app h
    cases h
  | cons sid rest ih =>
    intro app h
    cases hc : dlookup colors sid with
    | some c =>
      simp only [scanStyled, hc] at h
      injection h with h2
      exact Or.inl ⟨c, h2.symm⟩
    | none =>
      cases ht : dlookup textures sid with
      | some u =>
        simp only [scanStyled, hc, ht] at h
        injection h with h2
        exact Or.inr ⟨u, h2.symm⟩
      | none =>
        simp only [scanStyled, hc, ht] at h
        exact ih app h

/-- Resolution never returns a color and a texture together: a returned
texture reference forces an absent color. -/
lemma get_color_texture_excl (product : Product) (colors : List (Nat × RGBA))
    (textures : List (Nat × List Char)) (u : List Char)
    (h : (get_product_color product colors textures).texture = some u) :
    (get_product_color product colors textures).color = none := by
  cases hm : findMaterialColor colors product.hasAssociations with
  | some c =>
    simp only [get_product_color, hm] at h
    cases h
  | none =>
    cases hr : product.representation with
    | none =>
      simp only [get_product_color, hm, hr] at h
      cases h
    | some reps =>
      cases hs : findStyledAppearance colors textures reps with
      | none =>
        simp only [get_product_color, hm, hr, hs] at h
        cases h
      | some app =>
        simp only [get_product_color, hm, hr, hs] at h ⊢
        rw [findStyled_eq_scanStyled] at hs
        rcases scanStyled_shape colors textures (styledIds reps) app hs with
          ⟨c, rfl⟩ | ⟨u2, rfl⟩
        · cases h
        · rfl

/-- Claim C8: an appended element contributes one identical color per vertex
(flat per-element color); when resolution yields a texture reference the
applied color is the default light gray and, the reference being nonempty,
the loop emits the texture-found-but-not-applied warning; and every texture
reference the extraction delivers is a nonempty string, so the warning fires
for every pipeline-delivered texture. -/
theorem flat_color_and_texture_fallback (colors : List (Nat × RGBA))
    (textures : List (Nat × List Char)) (st : LoopState) (product : Product)
    (verts : List Vec3) (faces : List Tri) (hv : verts ≠ []) (hf : faces ≠ []) :
    (processProduct colors textures st ⟨product, .geometry verts faces⟩).1.all_colors
      = st.all_colors
        ++ [List.replicate verts.length (appliedColor product colors textures)] ∧
    (∀ x ∈ List.replicate verts.length (appliedColor product colors textures),
      x = appliedColor product colors textures) ∧
    (∀ u, (get_product_color product colors textures).texture = some u →
      appliedColor product colors textures = defaultColor ∧
      (u ≠ [] → LogEvent.textureNotApplied u
        ∈ (processProduct colors textures st ⟨product, .geometry verts faces⟩).2)) ∧
    (∀ m b p, p ∈ extract_textures m b → p.2 ≠ []) := by
  have hemp : ¬ (verts = [] ∨ faces = []) := by
    rintro (h | h)
    · exact hv h
    · exact hf h
  rw [processProduct_geometry colors textures st product verts faces hemp]
  refine ⟨rfl, ?_, ?_, ?_⟩
  · intro x hx
    exact List.eq_of_mem_replicate hx
  · intro u hu
    refine ⟨?_, ?_⟩
    · rw [appliedColor, get_color_texture_excl product colors textures u hu]
    · intro hne
      simp only [hu, if_neg hne]
      exact List.mem_singleton.mpr rfl
  · intro m b p hp
    cases b with
    | true => simp [extract_textures] at hp
    | false =>
      simp only [extract_textures, Bool.false_eq_true, if_false] at hp
      rw [List.mem_filter] at hp
      exact of_decide_eq_true hp.2

/-- Witness for the flat-color and texture-fallback behaviour: styled
product 7 resolves to a texture only, so the applied color is the default
gray, all broadcast colors are identical, and the warning is logged. -/
theorem flat_color_witness :
    (processProduct [] [(7, ['u'])] initState
        ⟨styledProduct, .geometry [(0, 0, 0)] [(0, 0, 0)]⟩).1.all_colors
      = initState.all_colors
        ++ [List.replicate 1 (appliedColor styledProduct [] [(7, ['u'])])] ∧
    appliedColor styledProduct [] [(7, ['u'])] = defaultColor ∧
    LogEvent.textureNotApplied ['u']
      ∈ (processProduct [] [(7, ['u'])] initState
          ⟨styledProduct, .geometry [(0, 0, 0)] [(0, 0, 0)]⟩).2 := by
  have h := flat_color_and_texture_fallback [] [(7, ['u'])] initState styledProduct
    [(0, 0, 0)] [(0, 0, 0)] (List.cons_ne_nil _ _) (List.cons_ne_nil _ _)
  have ht := h.2.2.1 ['u'] rfl
  exact ⟨h.1, ht.1, ht.2 (List.cons_ne_nil _ _)⟩

/-- Product entry that tessellates into a single triangle; its product has a
(truthy) Representation with an empty representation list. -/
def simpleEntry : ProductEntry :=
  ⟨⟨[], some []⟩, .geometry [(0, 0, 0), (0, 0, 1), (0, 1, 0)] [(0, 1, 2)]⟩

/-- Model with one convertible product and no appearance entities. -/
def oneProductModel : IfcModel := ⟨[], [], [], [], [simpleEntry]⟩

/-- Environment in which the try body of extract_material_colors raises but
every other step succeeds. -/
def envColorsRaise : Env := ⟨['o'], .ok oneProductModel, true, false, false, false, false⟩

/-- Claim C9, counterexample: the index-building step raises inside
extract_material_colors, yet the conversion returns True, because the
extraction helper catches its own exception, substitutes an empty mapping,
and the run continues to full success. -/
theorem extraction_raise_returns_true_cex :
    envColorsRaise.colorsRaise = true ∧
    convert_ifc_to_gltf envColorsRaise = true :=
  ⟨rfl, rfl⟩

/-- Claim C9, amended: the outer try-except makes the function total with a
boolean result; whenever model load, mesh construction, directory creation
or the glTF export raises, the result is False and no file is written; an
exception inside index building, by contrast, is caught within the
extraction helpers themselves and the conversion continues with an empty
index. -/
theorem convert_returns_false_on_raise (env : Env)
    (h : env.load = .error () ∨ env.meshRaise = true ∨ env.mkdirRaise = true ∨
      env.exportRaise = true) :
    convert_ifc_to_gltf env = false ∧ writtenFile env = none := by
  have hbody : convertBody env = .error () ∨ convertBody env = .ok none := by
    cases hl : env.load with
    | error e =>
      cases e
      left
      simp [convertBody, hl]
    | ok model =>
      simp only [convertBody, hl]
      split
      · right
        rfl
      · rcases h with h | h | h | h
        · rw [hl] at h
          cases h
        · left
          rw [if_pos h]
        · left
          by_cases h1 : env.meshRaise = true
          · rw [if_pos h1]
          · rw [if_neg h1, if_pos h]
        · left
          by_cases h1 : env.meshRaise = true
          · rw [if_pos h1]
          · rw [if_neg h1]
            by_cases h2 : env.mkdirRaise = true
            · rw [if_pos h2]
            · rw [if_neg h2, if_pos h]
  rcases hbody with hb | hb
  · exact ⟨by simp [convert_ifc_to_gltf, convertRun, hb],
      by simp [writtenFile, convertRun, hb]⟩
  · exact ⟨by simp [convert_ifc_to_gltf, convertRun, hb],
      by simp [writtenFile, convertRun, hb]⟩

/-- Environment in which the glTF export raises. -/
def envExportRaise : Env := ⟨['o'], .ok oneProductModel, false, false, false, false, true⟩

/-- Witness for the amended totality claim: a raising export yields a False
result and no written file. -/
theorem convert_returns_false_witness :
    convert_ifc_to_gltf envExportRaise = false ∧ writtenFile envExportRaise = none :=
  convert_returns_false_on_raise envExportRaise (Or.inr (Or.inr (Or.inr rfl)))

/-- Lowercasing distributes over appending the (already lowercase) glTF
suffix. -/
lemma lowerStr_append_gltf (s : List Char) :
    lowerStr (s ++ gltfSuffix) = lowerStr s ++ gltfSuffix := by
  rw [lowerStr, List.map_append]
  congr 1

/-- Any string extended by a suffix ends with that suffix. -/
lemma strEndsWith_append_self (s p : List Char) :
    strEndsWith (s ++ p) p = true := by
  rw [strEndsWith, List.length_append, if_pos (by omega)]
  have hl : s.length + p.length - p.length = s.length := by omega
  rw [hl, List.drop_left]
  simp

/-- The normalized output path always ends in .gltf after lowercasing. -/
lemma normalize_ends_gltf (s : List Char) :
    strEndsWith (lowerStr (normalizeOutputPath s)) gltfSuffix = true := by
  rw [normalizeOutputPath]
  by_cases h : strEndsWith (lowerStr s) gltfSuffix = true
  · rw [if_pos h]
    exact h
  · rw [if_neg h, lowerStr_append_gltf]
    exact strEndsWith_append_self (lowerStr s) gltfSuffix

/-- A full-success run writes exactly the normalized output path. -/
lemma convertBody_written (env : Env) (p : List Char)
    (h : convertBody env = .ok (some p)) :
    p = normalizeOutputPath env.outputPath := by
  cases hl : env.load with
  | error e =>
    simp only [convertBody, hl] at h
    exact Except.noConfusion h
  | ok model =>
    simp only [convertBody, hl] at h
    split at h
    · injection h with h2
      cases h2
    · split at h
      · cases h
      · split at h
        · cases h
        · split at h
          · cases h
          · injection h with h2
            injection h2 with h3
            exact h3.symm

/-- Claim C10: convert_ifc_to_gltf itself normalizes the output path it is
given, so whenever it writes a file the path is the normalized one and ends
in .gltf under the case-insensitive check, whatever the caller passed. -/
theorem output_path_gltf_suffix (env : Env) (p : List Char)
    (h : writtenFile env = some p) :
    p = normalizeOutputPath env.outputPath ∧
    strEndsWith (lowerStr p) gltfSuffix = true := by
  have hb : convertBody env = .ok (some p) := by
    cases hbb : convertBody env with
    | error e =>
      simp only [writtenFile, convertRun, hbb] at h
      exact Option.noConfusion h
    | ok o =>
      cases o with
      | none =>
        simp only [writtenFile, convertRun, hbb] at h
        exact Option.noConfusion h
      | some q =>
        simp only [writtenFile, convertRun, hbb, Option.some.injEq] at h
        rw [h]
  have hp := convertBody_written env p hb
  constructor
  · exact hp
  · rw [hp]
    exact normalize_ends_gltf env.outputPath

/-- Environment converting one product with the bare output path m. -/
def envPlainPath : Env := ⟨['m'], .ok oneProductModel, false, false, false, false, false⟩

/-- Witness for the output-path normalization on a successful run with a
suffix-free path. -/
theorem output_path_gltf_witness :
    (['m', '.', 'g', 'l', 't', 'f'] : List Char)
        = normalizeOutputPath envPlainPath.outputPath ∧
    strEndsWith (lowerStr ['m', '.', 'g', 'l', 't', 'f']) gltfSuffix = true :=
  output_path_gltf_suffix envPlainPath ['m', '.', 'g', 'l', 't', 'f'] rfl
